import Mathlib

/-!
Verification of the Redis persistence adapter
(`src/swiftide/src/integrations/redis/persist.rs`).

The adapter persists ingestion nodes into Redis. `store` issues a single
SET command, `batch_store` issues one bulk MSET command for a whole batch
and converts the result into a per-node outcome sequence. We embed the
two operations as pure functions over an explicit environment (connection
availability, command outcome) and record the commands that each call
issues as an explicit trace, so that statements of the form "no write
command is attempted" become statements about an empty trace.
-/

set_option autoImplicit false

namespace Swiftide

/-- Modelled from the spec: the unit of persisted content
(`IngestionNode`, declared in the ingestion module, which is not part of
the sources under verification). Attributes per the spec data model:
optional numeric identifier, a path, a text chunk, an optional numeric
vector, and a mapping of string metadata keys to values. The vector is
modelled with integer entries and the metadata mapping as an association
list. -/
structure IngestionNode where
  id : Option Nat
  path : String
  chunk : String
  vector : Option (List Int)
  metadata : List (String × String)
deriving DecidableEq

/-- A derivation failure produced by a key or value derivation function,
modelled as its opaque message. -/
abbrev DerivationError := String

/-- The error kinds surfaced by the adapter: the connection failure
produced when `lazy_connect` yields no connection, a propagated
derivation failure, and a store failure wrapping the underlying cause of
a failed command. -/
inductive RedisError where
  | connectionError : RedisError
  | derivationError (err : DerivationError) : RedisError
  | storeError (cause : String) : RedisError
deriving DecidableEq

/-- The write commands the adapter issues against the store: `SET key
value` and the bulk `MSET` whose argument list is built from per-node
`[key, value]` vectors. -/
inductive RedisCmd where
  | set (key value : String) : RedisCmd
  | mset (args : List (List String)) : RedisCmd
deriving DecidableEq

/-- The adapter instance: the configured batch size and the two
(possibly overridden) derivation functions `persist_key_for_node` and
`persist_value_for_node`. -/
structure Redis where
  batch_size : Nat
  persistKey : IngestionNode → Except DerivationError String
  persistValue : IngestionNode → Except DerivationError String

/-- The execution environment of one call: whether `lazy_connect` hands
back a connection, and whether the issued command succeeds (`none`) or
fails with an underlying cause (`some cause`). -/
structure Env where
  connected : Bool
  cmdErr : Option String

/-- `setup` is a no-op returning success. -/
def setup (_ : Redis) : Except RedisError Unit := Except.ok ()

/-- `batch_size` advertises the configured batch size. -/
def batchSize (r : Redis) : Option Nat := some r.batch_size

/-- The per-node closure body of `batch_store`: derive the key, then the
value, and return the `[key, value]` argument vector; the first failure
propagates. `store` follows the same key-then-value order. -/
def nodeArgs (r : Redis) (node : IngestionNode) : Except DerivationError (List String) :=
  match r.persistKey node with
  | Except.error e => Except.error e
  | Except.ok key =>
    match r.persistValue node with
    | Except.error e => Except.error e
    | Except.ok value => Except.ok [key, value]

/-- `nodes.iter().map(..).collect::<Result<Vec<_>>>()`: map `nodeArgs`
over the batch, short-circuiting at the first derivation failure. -/
def collectArgs (r : Redis) : List IngestionNode → Except DerivationError (List (List String))
  | [] => Except.ok []
  | node :: rest =>
    match nodeArgs r node with
    | Except.error e => Except.error e
    | Except.ok kv =>
      match collectArgs r rest with
      | Except.error e => Except.error e
      | Except.ok tail => Except.ok (kv :: tail)

/-- `store`: acquire a connection (else fail with the connection error),
derive key then value (a failure propagates before any command), issue
one SET, and on success return the original node. The second component
is the trace of issued commands. -/
def store (r : Redis) (env : Env) (node : IngestionNode) :
    Except RedisError IngestionNode × List RedisCmd :=
  if env.connected then
    match r.persistKey node with
    | Except.error e => (Except.error (RedisError.derivationError e), [])
    | Except.ok key =>
      match r.persistValue node with
      | Except.error e => (Except.error (RedisError.derivationError e), [])
      | Except.ok value =>
        match env.cmdErr with
        | none => (Except.ok node, [RedisCmd.set key value])
        | some cause => (Except.error (RedisError.storeError cause), [RedisCmd.set key value])
  else
    (Except.error RedisError.connectionError, [])

/-- `batch_store`: acquire a connection once (else a single connection
error outcome), collect all `[key, value]` argument vectors (a failure
yields a single derivation error outcome before any command), issue one
MSET, then either wrap every original node as a success outcome in input
order or yield a single store error outcome. The second component is the
trace of issued commands. -/
def batch_store (r : Redis) (env : Env) (nodes : List IngestionNode) :
    List (Except RedisError IngestionNode) × List RedisCmd :=
  if env.connected then
    match collectArgs r nodes with
    | Except.error e => ([Except.error (RedisError.derivationError e)], [])
    | Except.ok args =>
      match env.cmdErr with
      | none => (nodes.map Except.ok, [RedisCmd.mset args])
      | some cause => ([Except.error (RedisError.storeError cause)], [RedisCmd.mset args])
  else
    ([Except.error RedisError.connectionError], [])

/-- Unary length marker used by the serialization: `n` ones followed by
a bar. -/
def encNat (n : Nat) : List Char := List.replicate n '1' ++ ['|']

/-- Decode a unary length marker, returning the count and the rest of
the input. -/
def decNat (l : List Char) : Option (Nat × List Char) :=
  let ones := l.takeWhile (fun c => c == '1')
  match l.drop ones.length with
  | c :: rest => if c == '|' then some (ones.length, rest) else none
  | [] => none

/-- Length-prefixed encoding of a character list. -/
def encStr (s : List Char) : List Char := encNat s.length ++ s

/-- Decode a length-prefixed character list. -/
def decStr (l : List Char) : Option (List Char × List Char) :=
  match decNat l with
  | none => none
  | some (n, rest) =>
    if n ≤ rest.length then some (rest.take n, rest.drop n) else none

/-- Sign-then-magnitude encoding of an integer. -/
def encInt (i : Int) : List Char :=
  if i < 0 then '-' :: encNat (-i).toNat else '+' :: encNat i.toNat

/-- Decode a sign-then-magnitude integer. -/
def decInt (l : List Char) : Option (Int × List Char) :=
  match l with
  | c :: rest =>
    if c == '-' then (decNat rest).map (fun p => (-(p.1 : Int), p.2))
    else if c == '+' then (decNat rest).map (fun p => ((p.1 : Int), p.2))
    else none
  | [] => none

/-- Tagged encoding of an optional value. -/
def encOpt {α : Type} (enc : α → List Char) : Option α → List Char
  | none => ['N']
  | some a => 'S' :: enc a

/-- Decode a tagged optional value. -/
def decOpt {α : Type} (dec : List Char → Option (α × List Char)) (l : List Char) :
    Option (Option α × List Char) :=
  match l with
  | c :: rest =>
    if c == 'N' then some (none, rest)
    else if c == 'S' then (dec rest).map (fun p => (some p.1, p.2))
    else none
  | [] => none

/-- Concatenation of the encodings of all list elements. -/
def encAll {α : Type} (enc : α → List Char) : List α → List Char
  | [] => []
  | x :: xs => enc x ++ encAll enc xs

/-- Decode a known number of consecutive elements. -/
def decCount {α : Type} (dec : List Char → Option (α × List Char)) :
    Nat → List Char → Option (List α × List Char)
  | 0, l => some ([], l)
  | n + 1, l =>
    match dec l with
    | none => none
    | some (a, rest) =>
      match decCount dec n rest with
      | none => none
      | some (as, tail) => some (a :: as, tail)

/-- Count-prefixed encoding of a list. -/
def encList {α : Type} (enc : α → List Char) (xs : List α) : List Char :=
  encNat xs.length ++ encAll enc xs

/-- Decode a count-prefixed list. -/
def decList {α : Type} (dec : List Char → Option (α × List Char)) (l : List Char) :
    Option (List α × List Char) :=
  match decNat l with
  | none => none
  | some (n, rest) => decCount dec n rest

/-- Encoding of one metadata entry: key string then value string. -/
def encEntry (p : String × String) : List Char := encStr p.1.data ++ encStr p.2.data

/-- Decode one metadata entry. -/
def decEntry (l : List Char) : Option ((String × String) × List Char) :=
  match decStr l with
  | none => none
  | some (k, rest) =>
    match decStr rest with
    | none => none
    | some (v, tail) => some ((String.mk k, String.mk v), tail)

/-- Modelled from the spec: the default value derivation is a full
structured serialization of the node (id, path, chunk, vector, metadata)
that is reconstructible by a corresponding decode step. The concrete
JSON writer lives outside the sources under verification, so we model it
as a length-prefixed field-by-field serialization, character-list form. -/
def encodeNodeL (node : IngestionNode) : List Char :=
  encOpt encNat node.id ++ encStr node.path.data ++ encStr node.chunk.data ++
    encOpt (encList encInt) node.vector ++ encList encEntry node.metadata

/-- The decode step corresponding to `encodeNodeL`. -/
def decodeNodeL (l : List Char) : Option (IngestionNode × List Char) :=
  match decOpt decNat l with
  | none => none
  | some (i, r1) =>
    match decStr r1 with
    | none => none
    | some (p, r2) =>
      match decStr r2 with
      | none => none
      | some (c, r3) =>
        match decOpt (decList decInt) r3 with
        | none => none
        | some (v, r4) =>
          match decList decEntry r4 with
          | none => none
          | some (m, r5) => some (⟨i, String.mk p, String.mk c, v, m⟩, r5)

/-- The serialized node as the stored string value. -/
def encodeNode (node : IngestionNode) : String := String.mk (encodeNodeL node)

/-- Decode a stored string value back into a node; the whole input must
be consumed. -/
def decodeNode (s : String) : Option IngestionNode :=
  match decodeNodeL s.data with
  | some (node, []) => some node
  | _ => none

/-- Modelled from the spec: a deterministic content hash of the chunk,
a 64-bit polynomial hash. -/
def chunkHash (s : String) : Nat :=
  s.data.foldl (fun h c => (h * 31 + c.toNat) % 2 ^ 64) 5381

/-- Modelled from the spec: the default key derivation concatenates the
path with a hash of the chunk content. -/
def defaultPersistKey (node : IngestionNode) : String :=
  node.path ++ ":" ++ Nat.repr (chunkHash node.chunk)

/-- The default value derivation: the serialized node. -/
def defaultPersistValue (node : IngestionNode) : String := encodeNode node

/-- An adapter configured with the default derivation functions. -/
def defaultRedis : Redis :=
  ⟨256, fun n => Except.ok (defaultPersistKey n), fun n => Except.ok (defaultPersistValue n)⟩

/-- One invocation of the default key derivation, returning its output
together with the node as it stands after the call (derivations borrow
the node immutably, so the node is handed back as is). -/
def persistKeyCall (node : IngestionNode) : String × IngestionNode :=
  (defaultPersistKey node, node)

/-- One invocation of the default value derivation, returning its output
together with the node as it stands after the call. -/
def persistValueCall (node : IngestionNode) : String × IngestionNode :=
  (defaultPersistValue node, node)

/-- The visible state of the key-value store: an association list where
the most recent binding of a key shadows older ones. -/
abbrev RedisState := List (String × String)

/-- Unconditional overwrite of one key. -/
def setKV (s : RedisState) (key value : String) : RedisState := (key, value) :: s

/-- Read the current value bound to a key. -/
def lookupKV (s : RedisState) (key : String) : Option String :=
  match s with
  | [] => none
  | (k, v) :: rest => if k = key then some v else lookupKV rest key

/-- Effect of one command on the store state: SET writes one pair, MSET
writes every `[key, value]` argument vector in order. -/
def applyCmd (s : RedisState) : RedisCmd → RedisState
  | RedisCmd.set key value => setKV s key value
  | RedisCmd.mset args =>
    args.foldl (fun acc kv =>
      match kv with
      | [key, value] => setKV acc key value
      | _ => acc) s

/-- Effect of a command trace on the store state. -/
def runCmds (s : RedisState) (cmds : List RedisCmd) : RedisState :=
  cmds.foldl applyCmd s

/-- A store environment whose connection is down. -/
def envDown : Env := ⟨false, none⟩

/-- A store environment with a live connection and succeeding commands. -/
def envOk : Env := ⟨true, none⟩

/-- A store environment with a live connection whose commands fail. -/
def envCmdFail : Env := ⟨true, some "io error"⟩

/-- A concrete adapter whose derivations are the node path and chunk. -/
def wKeyRedis : Redis := ⟨3, fun n => Except.ok n.path, fun n => Except.ok n.chunk⟩

/-- A concrete adapter whose key derivation always fails. -/
def wBadRedis : Redis := ⟨3, fun _ => Except.error "bad key", fun n => Except.ok n.chunk⟩

/-- A concrete node. -/
def wNodeA : IngestionNode := ⟨some 1, "a", "x", none, []⟩

/-- A second concrete node. -/
def wNodeB : IngestionNode := ⟨some 2, "b", "y", some [1, -2], [("k", "v")]⟩

/-- Taking the leading ones of a unary marker followed by a non-one
character recovers exactly the marker body. -/
theorem takeWhile_ones (n : Nat) (c : Char) (hc : (c == '1') = false) (rest : List Char) :
    (List.replicate n '1' ++ c :: rest).takeWhile (fun x => x == '1') = List.replicate n '1' := by
  induction n with
  | zero => simp [List.takeWhile_cons, hc]
  | succ k ih => simp [List.replicate_succ, List.takeWhile_cons, ih]

/-- Decoding a unary length marker recovers the encoded count. -/
theorem decNat_enc (n : Nat) (rest : List Char) :
    decNat (encNat n ++ rest) = some (n, rest) := by
  have h1 : (List.replicate n '1' ++ '|' :: rest).takeWhile (fun x => x == '1')
      = List.replicate n '1' := takeWhile_ones n '|' (by decide) rest
  have h2 : (List.replicate n '1' ++ '|' :: rest).drop n = '|' :: rest := by
    have h := List.drop_left (List.replicate n '1') ('|' :: rest)
    rwa [List.length_replicate] at h
  simp only [decNat, encNat, List.append_assoc, List.singleton_append, h1,
    List.length_replicate, h2]
  simp

/-- Decoding a length-prefixed character list recovers the encoded
list. -/
theorem decStr_enc (s rest : List Char) : decStr (encStr s ++ rest) = some (s, rest) := by
  have hle : s.length ≤ (s ++ rest).length := by simp
  simp only [decStr, encStr, List.append_assoc, decNat_enc, hle, if_true]
  rw [List.take_left, List.drop_left]

/-- Decoding a sign-then-magnitude integer recovers the encoded
integer. -/
theorem decInt_enc (i : Int) (rest : List Char) : decInt (encInt i ++ rest) = some (i, rest) := by
  by_cases h : i < 0
  · have ht : (((-i).toNat : Int)) = -i := Int.toNat_of_nonneg (by omega)
    simp [encInt, decInt, h, decNat_enc, ht]
  · have ht : ((i.toNat : Int)) = i := Int.toNat_of_nonneg (by omega)
    simp [encInt, decInt, h, decNat_enc, ht]

/-- Decoding a tagged optional value recovers it, given a correct
component decoder. -/
theorem decOpt_enc {α : Type} (enc : α → List Char) (dec : List Char → Option (α × List Char))
    (hdec : ∀ a rest, dec (enc a ++ rest) = some (a, rest)) (o : Option α) (rest : List Char) :
    decOpt dec (encOpt enc o ++ rest) = some (o, rest) := by
  cases o with
  | none => simp [encOpt, decOpt]
  | some a => simp [encOpt, decOpt, hdec]

/-- Decoding a known number of consecutive elements recovers them, given
a correct element decoder. -/
theorem decCount_enc {α : Type} (enc : α → List Char) (dec : List Char → Option (α × List Char))
    (hdec : ∀ a rest, dec (enc a ++ rest) = some (a, rest)) (xs : List α) (rest : List Char) :
    decCount dec xs.length (encAll enc xs ++ rest) = some (xs, rest) := by
  induction xs with
  | nil => simp [encAll, decCount]
  | cons x tail ih => simp [encAll, decCount, List.append_assoc, hdec, ih]

/-- Decoding a count-prefixed list recovers it, given a correct element
decoder. -/
theorem decList_enc {α : Type} (enc : α → List Char) (dec : List Char → Option (α × List Char))
    (hdec : ∀ a rest, dec (enc a ++ rest) = some (a, rest)) (xs : List α) (rest : List Char) :
    decList dec (encList enc xs ++ rest) = some (xs, rest) := by
  simp only [decList, encList, List.append_assoc, decNat_enc]
  exact decCount_enc enc dec hdec xs rest

/-- Decoding one metadata entry recovers it. -/
theorem decEntry_enc (p : String × String) (rest : List Char) :
    decEntry (encEntry p ++ rest) = some (p, rest) := by
  obtain ⟨k, v⟩ := p
  simp [decEntry, encEntry, List.append_assoc, decStr_enc]

/-- Decoding a serialized node recovers the node and the trailing
input. -/
theorem decodeNodeL_enc (node : IngestionNode) (rest : List Char) :
    decodeNodeL (encodeNodeL node ++ rest) = some (node, rest) := by
  obtain ⟨i, p, c, v, m⟩ := node
  simp only [encodeNodeL, List.append_assoc]
  simp only [decodeNodeL,
    decOpt_enc encNat decNat decNat_enc,
    decStr_enc,
    decOpt_enc (encList encInt) (decList decInt) (decList_enc encInt decInt decInt_enc),
    decList_enc encEntry decEntry decEntry_enc]

/-- The node serialization round-trips through its decode step. -/
theorem decode_encode (node : IngestionNode) : decodeNode (encodeNode node) = some node := by
  have h := decodeNodeL_enc node []
  rw [List.append_nil] at h
  simp [decodeNode, encodeNode, h]

/-- When every node of a batch derives successfully, collecting the
argument vectors succeeds. -/
theorem collectArgs_ok_of_forall (r : Redis) (nodes : List IngestionNode)
    (h : ∀ n ∈ nodes, ∃ kv, nodeArgs r n = Except.ok kv) :
    ∃ args, collectArgs r nodes = Except.ok args := by
  induction nodes with
  | nil => exact ⟨[], rfl⟩
  | cons hd tl ih =>
    obtain ⟨kv, hkv⟩ := h hd (List.mem_cons_self hd tl)
    obtain ⟨args, hargs⟩ := ih (fun n hn => h n (List.mem_cons_of_mem hd hn))
    exact ⟨kv :: args, by simp [collectArgs, hkv, hargs]⟩

/-- When some node of a batch fails to derive, collecting the argument
vectors fails with the derivation error of a node of the batch. -/
theorem collectArgs_error_of_exists (r : Redis) (nodes : List IngestionNode)
    (h : ∃ n ∈ nodes, ∃ e, nodeArgs r n = Except.error e) :
    ∃ e, collectArgs r nodes = Except.error e ∧ ∃ n ∈ nodes, nodeArgs r n = Except.error e := by
  induction nodes with
  | nil => simp at h
  | cons hd tl ih =>
    cases hhd : nodeArgs r hd with
    | error e => exact ⟨e, by simp [collectArgs, hhd], hd, List.mem_cons_self hd tl, hhd⟩
    | ok kv =>
      obtain ⟨n, hn, e, he⟩ := h
      rcases List.mem_cons.mp hn with rfl | hn2
      · rw [hhd] at he; exact Except.noConfusion he
      · obtain ⟨e2, hcoll, n2, hn3, he2⟩ := ih ⟨n, hn2, e, he⟩
        exact ⟨e2, by simp [collectArgs, hhd, hcoll], n2, List.mem_cons_of_mem hd hn3, he2⟩

/-- Claim C1, counterexample: on a disconnected store, `batch_store` of
a two-node batch yields a single outcome, not one outcome per node — its
cardinality is 1 and differs from the batch size 2. -/
theorem batch_store_conn_failure_not_per_node :
    (batch_store wKeyRedis envDown [wNodeA, wNodeB]).1.length = 1 ∧
      (batch_store wKeyRedis envDown [wNodeA, wNodeB]).1.length ≠ [wNodeA, wNodeB].length := by
  constructor
  · rfl
  · decide

/-- Claim C1, amended: for every non-empty batch, if the connection
provider reports the store unavailable, `batch_store` attempts no write
and yields a single batch-level `ConnectionError` outcome (cardinality
1, not one outcome per node). -/
theorem batch_store_conn_failure_single_outcome (r : Redis) (env : Env)
    (nodes : List IngestionNode) (hconn : env.connected = false) (_hne : nodes ≠ []) :
    batch_store r env nodes = ([Except.error RedisError.connectionError], []) := by
  simp [batch_store, hconn]

/-- Witness for the amended claim C1 at a concrete two-node batch. -/
theorem batch_store_conn_failure_single_outcome_witness :
    envDown.connected = false ∧ ([wNodeA, wNodeB] : List IngestionNode) ≠ [] ∧
      batch_store wKeyRedis envDown [wNodeA, wNodeB]
        = ([Except.error RedisError.connectionError], []) :=
  ⟨rfl, List.cons_ne_nil _ _,
    batch_store_conn_failure_single_outcome wKeyRedis envDown [wNodeA, wNodeB] rfl
      (List.cons_ne_nil _ _)⟩

/-- Claim C2: with an available connection, derivation succeeding for
every node, and a succeeding bulk command, `batch_store` yields exactly
one success outcome per node, wrapping the original nodes unchanged in
input order. -/
theorem batch_store_success_per_node_ok (r : Redis) (env : Env) (nodes : List IngestionNode)
    (hconn : env.connected = true) (hcmd : env.cmdErr = none)
    (hall : ∀ n ∈ nodes, ∃ kv, nodeArgs r n = Except.ok kv) :
    (batch_store r env nodes).1 = nodes.map Except.ok ∧
      (batch_store r env nodes).1.length = nodes.length := by
  obtain ⟨args, hargs⟩ := collectArgs_ok_of_forall r nodes hall
  constructor <;> simp [batch_store, hconn, hcmd, hargs]

/-- Witness for claim C2 at a concrete two-node batch. -/
theorem batch_store_success_per_node_ok_witness :
    envOk.connected = true ∧ envOk.cmdErr = none ∧
      (∀ n ∈ ([wNodeA, wNodeB] : List IngestionNode), ∃ kv, nodeArgs wKeyRedis n = Except.ok kv) ∧
      (batch_store wKeyRedis envOk [wNodeA, wNodeB]).1 = [wNodeA, wNodeB].map Except.ok :=
  ⟨rfl, rfl, fun n _ => ⟨[n.path, n.chunk], rfl⟩,
    (batch_store_success_per_node_ok wKeyRedis envOk [wNodeA, wNodeB] rfl rfl
      (fun n _ => ⟨[n.path, n.chunk], rfl⟩)).1⟩

/-- Claim C3: with an available connection, if key or value derivation
fails for at least one node of the batch, `batch_store` issues no write
command and yields a single-element outcome sequence carrying that
derivation error. -/
theorem batch_store_derivation_failure_single_outcome (r : Redis) (env : Env)
    (nodes : List IngestionNode) (hconn : env.connected = true)
    (hex : ∃ n ∈ nodes, ∃ e, nodeArgs r n = Except.error e) :
    (batch_store r env nodes).2 = [] ∧
      ∃ e, (∃ n ∈ nodes, nodeArgs r n = Except.error e) ∧
        (batch_store r env nodes).1 = [Except.error (RedisError.derivationError e)] := by
  obtain ⟨e, hcoll, hn⟩ := collectArgs_error_of_exists r nodes hex
  exact ⟨by simp [batch_store, hconn, hcoll], e, hn, by simp [batch_store, hconn, hcoll]⟩

/-- Witness for claim C3 at a concrete batch whose key derivation
fails. -/
theorem batch_store_derivation_failure_single_outcome_witness :
    envOk.connected = true ∧
      (∃ n ∈ ([wNodeA] : List IngestionNode), ∃ e, nodeArgs wBadRedis n = Except.error e) ∧
      ((batch_store wBadRedis envOk [wNodeA]).2 = [] ∧
        ∃ e, (∃ n ∈ ([wNodeA] : List IngestionNode), nodeArgs wBadRedis n = Except.error e) ∧
          (batch_store wBadRedis envOk [wNodeA]).1
            = [Except.error (RedisError.derivationError e)]) :=
  ⟨rfl, ⟨wNodeA, List.mem_cons_self _ _, "bad key", rfl⟩,
    batch_store_derivation_failure_single_outcome wBadRedis envOk [wNodeA] rfl
      ⟨wNodeA, List.mem_cons_self _ _, "bad key", rfl⟩⟩

/-- Claim C4: with an available connection and every derivation
succeeding, if the bulk command fails, `batch_store` yields a
single-element outcome sequence carrying the wrapped store error. -/
theorem batch_store_cmd_failure_single_outcome (r : Redis) (env : Env)
    (nodes : List IngestionNode) (c : String)
    (hconn : env.connected = true) (hcmd : env.cmdErr = some c)
    (hall : ∀ n ∈ nodes, ∃ kv, nodeArgs r n = Except.ok kv) :
    (batch_store r env nodes).1 = [Except.error (RedisError.storeError c)] := by
  obtain ⟨args, hargs⟩ := collectArgs_ok_of_forall r nodes hall
  simp [batch_store, hconn, hcmd, hargs]

/-- Witness for claim C4 at a concrete two-node batch with a failing
bulk command. -/
theorem batch_store_cmd_failure_single_outcome_witness :
    envCmdFail.connected = true ∧ envCmdFail.cmdErr = some "io error" ∧
      (∀ n ∈ ([wNodeA, wNodeB] : List IngestionNode), ∃ kv, nodeArgs wKeyRedis n = Except.ok kv) ∧
      (batch_store wKeyRedis envCmdFail [wNodeA, wNodeB]).1
        = [Except.error (RedisError.storeError "io error")] :=
  ⟨rfl, rfl, fun n _ => ⟨[n.path, n.chunk], rfl⟩,
    batch_store_cmd_failure_single_outcome wKeyRedis envCmdFail [wNodeA, wNodeB] "io error"
      rfl rfl (fun n _ => ⟨[n.path, n.chunk], rfl⟩)⟩

/-- Claim C5: if the connection provider reports the store unavailable,
`store` returns the connection error with no write attempted, and its
result does not depend on the node. -/
theorem store_conn_failure (r : Redis) (env : Env) (node other : IngestionNode)
    (hconn : env.connected = false) :
    store r env node = (Except.error RedisError.connectionError, []) ∧
      store r env node = store r env other := by
  constructor <;> simp [store, hconn]

/-- Witness for claim C5 at a concrete node. -/
theorem store_conn_failure_witness :
    envDown.connected = false ∧
      (store wKeyRedis envDown wNodeA = (Except.error RedisError.connectionError, []) ∧
        store wKeyRedis envDown wNodeA = store wKeyRedis envDown wNodeB) :=
  ⟨rfl, store_conn_failure wKeyRedis envDown wNodeA wNodeB rfl⟩

/-- Claim C6: whenever `store` succeeds, the success value is the
original input node unchanged. -/
theorem store_success_returns_input (r : Redis) (env : Env) (node result : IngestionNode)
    (h : (store r env node).1 = Except.ok result) : result = node := by
  unfold store at h
  by_cases hc : env.connected
  · simp only [hc, if_true] at h
    cases hk : r.persistKey node with
    | error e => rw [hk] at h; simp at h
    | ok key =>
      rw [hk] at h
      cases hv : r.persistValue node with
      | error e => rw [hv] at h; simp at h
      | ok value =>
        rw [hv] at h
        cases hcmd : env.cmdErr with
        | none => rw [hcmd] at h; simp at h; exact h.symm
        | some cause => rw [hcmd] at h; simp at h
  · simp [hc] at h

/-- Witness for claim C6 at a concrete successful store call. -/
theorem store_success_returns_input_witness :
    (store wKeyRedis envOk wNodeA).1 = Except.ok wNodeA ∧ wNodeA = wNodeA :=
  ⟨rfl, store_success_returns_input wKeyRedis envOk wNodeA wNodeA rfl⟩

/-- Claim C7: with an available connection, if key or value derivation
fails for the node, `store` returns that derivation error unchanged and
issues no write command. -/
theorem store_derivation_failure (r : Redis) (env : Env) (node : IngestionNode)
    (e : DerivationError) (hconn : env.connected = true)
    (hder : nodeArgs r node = Except.error e) :
    store r env node = (Except.error (RedisError.derivationError e), []) := by
  unfold nodeArgs at hder
  cases hk : r.persistKey node with
  | error e2 =>
    rw [hk] at hder
    simp at hder
    subst hder
    simp [store, hconn, hk]
  | ok key =>
    rw [hk] at hder
    cases hv : r.persistValue node with
    | error e2 =>
      rw [hv] at hder
      simp at hder
      subst hder
      simp [store, hconn, hk, hv]
    | ok value => rw [hv] at hder; simp at hder

/-- Witness for claim C7 at a concrete node whose key derivation
fails. -/
theorem store_derivation_failure_witness :
    envOk.connected = true ∧ nodeArgs wBadRedis wNodeA = Except.error "bad key" ∧
      store wBadRedis envOk wNodeA
        = (Except.error (RedisError.derivationError "bad key"), []) :=
  ⟨rfl, rfl, store_derivation_failure wBadRedis envOk wNodeA "bad key" rfl rfl⟩

/-- Claim C8: the default key and value derivations are deterministic —
a repeated call on the node handed back by the first call returns the
same output — and neither call mutates the node. -/
theorem derivation_deterministic_pure (node : IngestionNode) :
    (persistKeyCall node).2 = node ∧ (persistValueCall node).2 = node ∧
      (persistKeyCall (persistKeyCall node).2).1 = (persistKeyCall node).1 ∧
      (persistValueCall (persistValueCall node).2).1 = (persistValueCall node).1 :=
  ⟨rfl, rfl, rfl, rfl⟩

/-- Claim C9: after a successful `store` with the default derivations,
reading the store at the derived key of the node yields a value that
decodes back to a node equal to the input — the default serialization
round-trips. -/
theorem store_roundtrip (env : Env) (node : IngestionNode) (s0 : RedisState)
    (hconn : env.connected = true) (hcmd : env.cmdErr = none) :
    (store defaultRedis env node).1 = Except.ok node ∧
      Option.bind (lookupKV (runCmds s0 (store defaultRedis env node).2) (defaultPersistKey node))
        decodeNode = some node := by
  have hs : store defaultRedis env node
      = (Except.ok node, [RedisCmd.set (defaultPersistKey node) (defaultPersistValue node)]) := by
    simp [store, hconn, hcmd, defaultRedis]
  refine ⟨by rw [hs], ?_⟩
  rw [hs]
  simp [runCmds, applyCmd, setKV, lookupKV, defaultPersistValue, decode_encode]

/-- Witness for claim C9 at a concrete node and the empty initial store
state. -/
theorem store_roundtrip_witness :
    envOk.connected = true ∧ envOk.cmdErr = none ∧
      ((store defaultRedis envOk wNodeA).1 = Except.ok wNodeA ∧
        Option.bind
          (lookupKV (runCmds [] (store defaultRedis envOk wNodeA).2) (defaultPersistKey wNodeA))
          decodeNode = some wNodeA) :=
  ⟨rfl, rfl, store_roundtrip envOk wNodeA [] rfl rfl⟩

/-- Claim C10: for every input batch, the outcome sequence of
`batch_store` has one of exactly two shapes — one success outcome per
input node in input order, or a single failure outcome; successes and
failures never mix. -/
theorem batch_store_outcome_shape (r : Redis) (env : Env) (nodes : List IngestionNode) :
    (batch_store r env nodes).1 = nodes.map Except.ok ∨
      ∃ e, (batch_store r env nodes).1 = [Except.error e] := by
  by_cases hc : env.connected
  · cases hargs : collectArgs r nodes with
    | error e =>
      right
      exact ⟨RedisError.derivationError e, by simp [batch_store, hc, hargs]⟩
    | ok args =>
      cases hcmd : env.cmdErr with
      | none => left; simp [batch_store, hc, hargs, hcmd]
      | some cause =>
        right
        exact ⟨RedisError.storeError cause, by simp [batch_store, hc, hargs, hcmd]⟩
  · right
    exact ⟨RedisError.connectionError, by simp [batch_store, hc]⟩

end Swiftide
